import Mathlib

/-!
Verification development for the tool-calling orchestration core of the
`tabla` chat-assistant repository.

The embedding models the Python values that flow through the core
(`router.py`, `messages.py`, `core/llm_client.py`, the tool-selection
predicate of `core/platform.py`) as a `PyVal` inductive, and the three
central operations as Lean functions translated line by line from the
source:

* `execute_function_call` — the dispatcher of `router.py` (lines 76-123),
  parameterised by an abstract registry, since the registered handlers
  (`googledb`, `wrappers`) are external network/renderer code;
* `create_simplified_tool_response` — the response-channel splitter of
  `messages.py` (lines 160-195);
* `process_user_request` — the recursive orchestrator of
  `core/llm_client.py` (lines 135-244), parameterised by an abstract LLM
  oracle standing for `respond` and an abstract JSON-argument parser
  standing for `json.loads`.  The Lean function additionally returns the
  number of LLM round-trips performed (ghost instrumentation; the message
  list component is exactly the Python return value).

Logging calls in the source are side-effect-free for the data flow and are
not modelled.
-/

/-- A Python value as it flows through the tool-calling core: strings,
integers, booleans, `None`, lists and string-keyed dicts. -/
inductive PyVal where
  | str : String → PyVal
  | int : Int → PyVal
  | bool : Bool → PyVal
  | none : PyVal
  | list : List PyVal → PyVal
  | dict : List (String × PyVal) → PyVal

namespace PyVal

/-- `d.get(k)` on a dict represented as an association list (first match,
as Python dicts have unique keys). -/
def dictGet (entries : List (String × PyVal)) (key : String) : Option PyVal :=
  match entries with
  | [] => Option.none
  | (k, v) :: rest => if k = key then some v else dictGet rest key

end PyVal

/-- One hexadecimal digit, lower case, as used by `json.dumps` in
`\uXXXX` escapes. -/
def hexDigit (n : Nat) : Char :=
  if n < 10 then Char.ofNat (48 + n) else Char.ofNat (87 + n)

/-- Four-digit lower-case hexadecimal rendering of a code point. -/
def hex4 (n : Nat) : String :=
  String.mk [hexDigit (n / 4096 % 16), hexDigit (n / 256 % 16),
             hexDigit (n / 16 % 16), hexDigit (n % 16)]

/-- The escape `json.dumps` (default `ensure_ascii=True`) applies to one
character of a string. -/
def jsonEscapeChar (c : Char) : String :=
  if c = '\"' then "\\\""
  else if c = '\\' then "\\\\"
  else if c = '\n' then "\\n"
  else if c = '\t' then "\\t"
  else if c = '\r' then "\\r"
  else if c.toNat < 32 ∨ c.toNat > 126 then "\\u" ++ hex4 c.toNat
  else String.singleton c

/-- JSON escaping of a whole string, character by character. -/
def jsonEscape (s : String) : String :=
  String.join (s.data.map jsonEscapeChar)

mutual

/-- `json.dumps` with its default separators, applied to a `PyVal`; used by
the orchestrator to serialize the simplified tool result into the tool
message `content` (`core/llm_client.py` line 231). -/
def PyVal.dumps : PyVal → String
  | .str s => "\"" ++ jsonEscape s ++ "\""
  | .int n => toString n
  | .bool b => if b then "true" else "false"
  | .none => "null"
  | .list xs => "[" ++ PyVal.dumpsList xs ++ "]"
  | .dict es => "\x7b" ++ PyVal.dumpsEntries es ++ "\x7d"

/-- Comma-separated serialization of a JSON array body. -/
def PyVal.dumpsList : List PyVal → String
  | [] => ""
  | [x] => PyVal.dumps x
  | x :: y :: rest => PyVal.dumps x ++ ", " ++ PyVal.dumpsList (y :: rest)

/-- Comma-separated serialization of a JSON object body. -/
def PyVal.dumpsEntries : List (String × PyVal) → String
  | [] => ""
  | [(k, v)] => "\"" ++ jsonEscape k ++ "\": " ++ PyVal.dumps v
  | (k, v) :: e :: rest =>
      "\"" ++ jsonEscape k ++ "\": " ++ PyVal.dumps v ++ ", " ++ PyVal.dumpsEntries (e :: rest)

end

/-- Python `str()` of a value, as used by the orchestrator for non-dict,
non-`None` tool results (`core/llm_client.py` line 238).  For strings it is
the string itself; containers render in Python literal style. -/
def PyVal.pyStr : PyVal → String
  | .str s => s
  | .int n => toString n
  | .bool b => if b then "True" else "False"
  | .none => "None"
  | .list xs => "[" ++ PyVal.dumpsList xs ++ "]"
  | .dict es => "\x7b" ++ PyVal.dumpsEntries es ++ "\x7d"

/-- Outcome of invoking a registered handler with `handler(**args)`
(`router.py` line 102).  A handler either returns a Python value (possibly
`None`, modelled as `.ret PyVal.none`), raises a `TypeError` (which Python
also raises at the call site when the argument names do not match the
signature), or raises any other exception; the carried string is `str(e)`. -/
inductive HandlerResult where
  | ret : PyVal → HandlerResult
  | typeError : String → HandlerResult
  | raised : String → HandlerResult

/-- A tool handler: receives the parsed argument mapping, produces a
`HandlerResult`.  The source registers external handlers from `googledb`
and `wrappers`; the dispatcher is proved for an arbitrary registry. -/
def Handler : Type := PyVal → HandlerResult

/-- The registry shape of `FUNCTION_REGISTRY` (`router.py` lines 22-33):
a read-only map from a tool name to its handler, `Option.none` standing
for a name that is not registered. -/
def Registry : Type := String → Option Handler

/-- `create_error_response` from `router.py` lines 42-70: the standardized
error dictionary; `details` is attached only when truthy (a non-empty
string). -/
def create_error_response (message : String) (details : Option String) : PyVal :=
  match details with
  | some d => if d = "" then .dict [("type", .str "error"), ("data", .dict [("message", .str message)])]
              else .dict [("type", .str "error"), ("data", .dict [("message", .str message), ("details", .str d)])]
  | Option.none => .dict [("type", .str "error"), ("data", .dict [("message", .str message)])]

/-- `execute_function_call` from `router.py` lines 76-123: the main
dispatcher.  An unknown name yields the not-found error response; a
handler `TypeError` or other exception is caught and converted to an error
response; otherwise the handler's return value — including Python `None` —
is returned unchanged. -/
def execute_function_call (registry : Registry) (function_name : String)
    (function_arguments : PyVal) : PyVal :=
  match registry function_name with
  | Option.none =>
      create_error_response
        ("in execute_function_call Function \x27" ++ function_name ++ "\x27 not found in registry\n")
        Option.none
  | some function_handler =>
      match function_handler function_arguments with
      | .ret v => v
      | .typeError e =>
          create_error_response
            (" in execute_function_call Invalid arguments for function \x27" ++ function_name ++ "\x27")
            (some e)
      | .raised e =>
          create_error_response
            (" in execute_function_call Error executing function \x27" ++ function_name ++ "\x27")
            (some e)

/-- `create_simplified_tool_response` from `messages.py` lines 160-195: the
response-channel splitter.  A `success` dict whose `data` dict contains an
`image` key is replaced by a projection keeping `chart_type` and `title`
(with their Python `.get` defaults) and the fixed sentinel string; every
other value is returned as-is. -/
def create_simplified_tool_response (tool_result : PyVal) : PyVal :=
  match tool_result with
  | .dict entries =>
      match PyVal.dictGet entries "type", PyVal.dictGet entries "data" with
      | some (.str "success"), some (.dict data_entries) =>
          if (PyVal.dictGet data_entries "image").isSome then
            .dict [("type", .str "success"),
                   ("data", .dict [
                      ("chart_type", (PyVal.dictGet data_entries "chart_type").getD (.str "chart")),
                      ("title", (PyVal.dictGet data_entries "title").getD (.str "Chart")),
                      ("image", .str "generated successfully")])]
          else tool_result
      | _, _ => tool_result
  | _ => tool_result

/-- One tool-call request of an assistant reply, as normalized by the
orchestrator (`core/llm_client.py` lines 193-204): `id`, `type`, function
`name` and the raw JSON `arguments` text. -/
structure ToolCall where
  id : String
  type : String
  name : String
  arguments : String
deriving DecidableEq

/-- The message of one LLM completion choice: optional text `content` and
an optional list of tool calls (`None` and the empty list are distinct
Python values and are distinguished by the source's two tests). -/
structure LLMReply where
  content : Option String
  tool_calls : Option (List ToolCall)
deriving DecidableEq

/-- One conversation message dict.  Absent Python keys are modelled as
`Option.none` (`original_content` models the out-of-band
`_original_content` key). -/
structure Message where
  role : String
  content : Option String := Option.none
  tool_calls : Option (List ToolCall) := Option.none
  tool_call_id : Option String := Option.none
  original_content : Option PyVal := Option.none

/-- The external collaborators of the orchestrator: the LLM provider
(`respond`, returning `Option.none` on failure and the completion's
`choices` list on success), the handler registry, and the JSON argument
parser (`json.loads`, `Option.none` modelling a parse exception). -/
structure Env where
  llm : List Message → Option (List LLMReply)
  registry : Registry
  parseArgs : String → Option PyVal

/-- The fixed clarification message of `core/llm_client.py` lines 157-163. -/
def assistant_clarification_message : Message :=
  { role := "assistant",
    content := some ("I\x27m sorry, I couldn\x27t understand the query clearly. " ++
      "Could you please rephrase or provide more details about what you\x27re looking for?") }

/-- Argument parsing of one tool call (`core/llm_client.py` lines 211-215):
on a parse failure the empty mapping is substituted. -/
def parsed_function_args (env : Env) (tool_call : ToolCall) : PyVal :=
  match env.parseArgs tool_call.arguments with
  | some v => v
  | Option.none => .dict []

/-- The body of the per-tool-call loop (`core/llm_client.py` lines
209-241): dispatch the call, then build the tool message — `None` results
give a fixed failure text, dict results carry the serialized simplified
projection as `content` and the untouched result as `_original_content`,
and any other result is stringified. -/
def make_tool_response (env : Env) (tool_call : ToolCall) : Message :=
  match execute_function_call env.registry tool_call.name (parsed_function_args env tool_call) with
  | .none =>
      { role := "tool", tool_call_id := some tool_call.id,
        content := some ("Function \x27" ++ tool_call.name ++ "\x27 failed to execute") }
  | .dict entries =>
      { role := "tool", tool_call_id := some tool_call.id,
        content := some (PyVal.dumps (create_simplified_tool_response (.dict entries))),
        original_content := some (.dict entries) }
  | other =>
      { role := "tool", tool_call_id := some tool_call.id,
        content := some other.pyStr }

/-- `process_user_request` from `core/llm_client.py` lines 135-244.  The
first component is exactly the Python return value (the extended
conversation history); the second counts the LLM round-trips (calls to
`respond`) the run performs — ghost instrumentation for the termination
claims. -/
def process_user_request (env : Env) (conversation_history : List Message)
    (depth : Nat) (max_depth : Nat) : List Message × Nat :=
  if h : depth > max_depth then
    (conversation_history ++ [assistant_clarification_message], 0)
  else
    match env.llm conversation_history with
    | Option.none => (conversation_history ++ [assistant_clarification_message], 1)
    | some [] => (conversation_history ++ [assistant_clarification_message], 1)
    | some (reply :: _) =>
      if reply.content = Option.none ∧ reply.tool_calls = Option.none then
        (conversation_history ++ [assistant_clarification_message], 1)
      else
        match reply.tool_calls with
        | Option.none =>
            (conversation_history ++ [{ role := "assistant", content := reply.content }], 1)
        | some [] =>
            (conversation_history ++ [{ role := "assistant", content := reply.content }], 1)
        | some (tc :: tcs) =>
            let assistant_message : Message :=
              { role := "assistant", content := reply.content, tool_calls := some (tc :: tcs) }
            let tool_responses := (tc :: tcs).map (make_tool_response env)
            let rec_result := process_user_request env
              (conversation_history ++ assistant_message :: tool_responses) (depth + 1) max_depth
            (rec_result.fst, rec_result.snd + 1)
termination_by max_depth + 1 - depth
decreasing_by
  simp only [gt_iff_lt, not_lt] at h
  omega

/-- The filter of `core/platform.py` lines 124-127: a message is an
image-delivery candidate when its role is `tool` and its
`_original_content` is a dict. -/
def is_tool_with_original (m : Message) : Bool :=
  m.role == "tool" &&
    match m.original_content with
    | some (.dict _) => true
    | _ => false

/-- `next((msg for msg in reversed(response) if ...), None)` of
`core/platform.py` lines 124-127: the last tool message carrying a dict
`_original_content`. -/
def last_tool_response (response : List Message) : Option Message :=
  response.reverse.find? is_tool_with_original

/-- The turn-response pairing invariant of the spec (§3, §8): scanning the
conversation, no tool message appears outside a block, and every message
carrying a `tool_calls` list is immediately followed by exactly one tool
message per request, with matching `tool_call_id`s in the same order. -/
def pairing_ok : List Message → Bool
  | [] => true
  | m :: rest =>
    if m.role == "tool" then false
    else
      match m.tool_calls with
      | some tcs =>
          decide ((rest.take tcs.length).map (fun x => (x.role, x.tool_call_id))
                  = tcs.map (fun tc => ("tool", some tc.id)))
          && pairing_ok (rest.drop tcs.length)
      | Option.none => pairing_ok rest
termination_by l => l.length
decreasing_by
  · simp only [List.length_drop, List.length_cons]
    omega
  · simp only [List.length_cons]
    omega

/-- The condition under which the splitter rewrites a result: a dict
tagged `success` whose `data` dict contains the key `image`.  (Statement
vocabulary for the claims; mirrors the test at `messages.py` lines
176-179.) -/
def is_image_success (r : PyVal) : Bool :=
  match r with
  | .dict es =>
      match PyVal.dictGet es "type", PyVal.dictGet es "data" with
      | some (.str "success"), some (.dict ds) => (PyVal.dictGet ds "image").isSome
      | _, _ => false
  | _ => false

/-- `needle` occurs as a contiguous substring of `hay`. -/
def containsStr (hay needle : String) : Prop :=
  ∃ pre post, hay = pre ++ needle ++ post

/-- The forcing scenario of spec §8: at every point of the run, the LLM
reply carries at least one tool-call request. -/
def forces_tools (env : Env) : Prop :=
  ∀ ms : List Message, ∃ reply tail tc tcs,
    env.llm ms = some (reply :: tail) ∧ reply.tool_calls = some (tc :: tcs)

/-- A concrete environment whose LLM oracle always replies with one
tool-call request. -/
def forcing_env : Env :=
  { llm := fun _ =>
      some [⟨Option.none, some [⟨"call_1", "function", "execute_sql_query", "\x7b\x7d"⟩]⟩],
    registry := fun _ => Option.none,
    parseArgs := fun _ => some (.dict []) }

/-- A one-handler registry whose handler returns Python `None`. -/
def none_returning_registry : Registry :=
  fun name => if name = "execute_sql_query" then some (fun _ => .ret PyVal.none) else Option.none

/-- An environment carrying the `None`-returning registry. -/
def none_env : Env :=
  { llm := fun _ => Option.none,
    registry := none_returning_registry,
    parseArgs := fun _ => some (.dict []) }

/-- A one-handler registry whose handler returns a plain mapping without a
`type`/`data` pair. -/
def mapping_returning_registry : Registry :=
  fun name =>
    if name = "execute_sql_query" then some (fun _ => .ret (.dict [("rows", .int 2)]))
    else Option.none

/-- An environment carrying the mapping-returning registry. -/
def mapping_env : Env :=
  { llm := fun _ => Option.none,
    registry := mapping_returning_registry,
    parseArgs := fun _ => some (.dict []) }

/-- The registry with nothing registered. -/
def empty_registry : Registry := fun _ => Option.none

/-- An environment with an empty registry whose LLM requests the unknown
tool once. -/
def unknown_tool_env : Env :=
  { llm := fun _ =>
      some [⟨Option.none, some [⟨"call_9", "function", "create_gantt_chart", "\x7b\x7d"⟩]⟩],
    registry := empty_registry,
    parseArgs := fun _ => some (.dict []) }

/-- An environment whose argument parser always fails. -/
def bad_json_env : Env :=
  { llm := fun _ => Option.none,
    registry := empty_registry,
    parseArgs := fun _ => Option.none }

/-- A 200-character stand-in for a base64 image payload. -/
def chart_payload : String := String.mk (List.replicate 200 'A')

/-- The ToolResult a chart tool returns: `success` data with `chart_type`,
`title` and the image payload. -/
def chart_result : PyVal :=
  .dict [("type", .str "success"),
         ("data", .dict [("chart_type", .str "bar_chart"), ("title", .str "X"),
                         ("image", .str chart_payload)])]

/-- A registry with one chart tool returning `chart_result`. -/
def chart_registry : Registry :=
  fun name => if name = "create_bar_chart" then some (fun _ => .ret chart_result)
              else Option.none

/-- An environment carrying the chart registry. -/
def chart_env : Env :=
  { llm := fun _ => Option.none,
    registry := chart_registry,
    parseArgs := fun _ => some (.dict []) }

/-- A registry with one tool returning a scalar string. -/
def scalar_registry : Registry :=
  fun name => if name = "resolve_name" then some (fun _ => .ret (.str "John Smith"))
              else Option.none

/-- An environment carrying the scalar registry. -/
def scalar_env : Env :=
  { llm := fun _ => Option.none,
    registry := scalar_registry,
    parseArgs := fun _ => some (.dict []) }

/-- An environment whose LLM reply has `None` content and a present but
empty tool-call list. -/
def empty_calls_env : Env :=
  { llm := fun _ => some [⟨Option.none, some []⟩],
    registry := empty_registry,
    parseArgs := fun _ => Option.none }

/-- An environment whose LLM call always fails. -/
def failing_llm_env : Env :=
  { llm := fun _ => Option.none,
    registry := empty_registry,
    parseArgs := fun _ => Option.none }

/-- An environment whose LLM reply requests one `execute_sql_query` call. -/
def pairing_env : Env :=
  { llm := fun _ =>
      some [⟨some "joining", some [⟨"call_8", "function", "execute_sql_query", "\x7b\x7d"⟩]⟩],
    registry := empty_registry,
    parseArgs := fun _ => some (.dict []) }

theorem not_containsStr_of_longer (hay needle : String)
    (h : hay.length < needle.length) : ¬ containsStr hay needle := by
  rintro ⟨pre, post, rfl⟩
  simp only [String.length_append] at h
  omega

theorem process_eq_max_depth (env : Env) (conv : List Message) (depth md : Nat)
    (h : depth > md) :
    process_user_request env conv depth md = (conv ++ [assistant_clarification_message], 0) := by
  unfold process_user_request
  rw [dif_pos h]

theorem process_eq_llm_fail (env : Env) (conv : List Message) (depth md : Nat)
    (h : ¬ depth > md) (hllm : env.llm conv = Option.none) :
    process_user_request env conv depth md = (conv ++ [assistant_clarification_message], 1) := by
  unfold process_user_request
  rw [dif_neg h, hllm]

theorem process_eq_no_choices (env : Env) (conv : List Message) (depth md : Nat)
    (h : ¬ depth > md) (hllm : env.llm conv = some []) :
    process_user_request env conv depth md = (conv ++ [assistant_clarification_message], 1) := by
  unfold process_user_request
  rw [dif_neg h, hllm]

theorem process_eq_unusable (env : Env) (conv : List Message) (depth md : Nat)
    (reply : LLMReply) (tail : List LLMReply)
    (h : ¬ depth > md) (hllm : env.llm conv = some (reply :: tail))
    (hc : reply.content = Option.none) (ht : reply.tool_calls = Option.none) :
    process_user_request env conv depth md = (conv ++ [assistant_clarification_message], 1) := by
  unfold process_user_request
  rw [dif_neg h, hllm]
  dsimp only
  rw [if_pos ⟨hc, ht⟩]

theorem process_eq_final (env : Env) (conv : List Message) (depth md : Nat)
    (reply : LLMReply) (tail : List LLMReply) (text : String)
    (h : ¬ depth > md) (hllm : env.llm conv = some (reply :: tail))
    (hc : reply.content = some text) (ht : reply.tool_calls = Option.none) :
    process_user_request env conv depth md
      = (conv ++ [{ role := "assistant", content := some text }], 1) := by
  unfold process_user_request
  rw [dif_neg h, hllm]
  dsimp only
  rw [if_neg (by simp [hc]), ht]
  dsimp only
  rw [hc]

theorem process_eq_empty_calls (env : Env) (conv : List Message) (depth md : Nat)
    (reply : LLMReply) (tail : List LLMReply)
    (h : ¬ depth > md) (hllm : env.llm conv = some (reply :: tail))
    (ht : reply.tool_calls = some []) :
    process_user_request env conv depth md
      = (conv ++ [{ role := "assistant", content := reply.content }], 1) := by
  unfold process_user_request
  rw [dif_neg h, hllm]
  dsimp only
  rw [if_neg (by simp [ht]), ht]

theorem process_eq_tools (env : Env) (conv : List Message) (depth md : Nat)
    (reply : LLMReply) (tail : List LLMReply) (tc : ToolCall) (tcs : List ToolCall)
    (h : ¬ depth > md) (hllm : env.llm conv = some (reply :: tail))
    (ht : reply.tool_calls = some (tc :: tcs)) :
    process_user_request env conv depth md
      = ((process_user_request env
            (conv ++ ({ role := "assistant", content := reply.content,
                        tool_calls := some (tc :: tcs) } : Message)
               :: (tc :: tcs).map (make_tool_response env)) (depth + 1) md).fst,
         (process_user_request env
            (conv ++ ({ role := "assistant", content := reply.content,
                        tool_calls := some (tc :: tcs) } : Message)
               :: (tc :: tcs).map (make_tool_response env)) (depth + 1) md).snd + 1) := by
  rw [process_user_request.eq_def]
  rw [dif_neg h, hllm]
  dsimp only
  rw [if_neg (by simp [ht]), ht]

/-- At any depth still within the ceiling, at least one LLM round-trip is
performed. -/
theorem process_snd_pos (env : Env) (conv : List Message) (depth md : Nat)
    (h : ¬ depth > md) : 1 ≤ (process_user_request env conv depth md).snd := by
  cases hllm : env.llm conv with
  | none => rw [process_eq_llm_fail env conv depth md h hllm]
  | some choices =>
    cases choices with
    | nil => rw [process_eq_no_choices env conv depth md h hllm]
    | cons reply tail =>
      cases ht : reply.tool_calls with
      | none =>
        cases hc : reply.content with
        | none => rw [process_eq_unusable env conv depth md reply tail h hllm hc ht]
        | some text => rw [process_eq_final env conv depth md reply tail text h hllm hc ht]
      | some tcs =>
        cases tcs with
        | nil => rw [process_eq_empty_calls env conv depth md reply tail h hllm ht]
        | cons tc tcs =>
          rw [process_eq_tools env conv depth md reply tail tc tcs h hllm ht]
          exact Nat.le_add_left 1 _

/-- The round-trip count never exceeds `max_depth + 1 - depth`. -/
theorem process_snd_le (env : Env) (conversation_history : List Message)
    (depth max_depth : Nat) :
    (process_user_request env conversation_history depth max_depth).snd
      ≤ max_depth + 1 - depth := by
  induction conversation_history, depth, max_depth using process_user_request.induct env with
  | case1 conv depth md h =>
    rw [process_eq_max_depth env conv depth md h]
    exact Nat.zero_le _
  | case2 conv depth md h hllm =>
    rw [process_eq_llm_fail env conv depth md h hllm]
    simp only [gt_iff_lt, not_lt] at h
    omega
  | case3 conv depth md h hllm =>
    rw [process_eq_no_choices env conv depth md h hllm]
    simp only [gt_iff_lt, not_lt] at h
    omega
  | case4 conv depth md h reply tail hllm hcond =>
    rw [process_eq_unusable env conv depth md reply tail h hllm hcond.1 hcond.2]
    simp only [gt_iff_lt, not_lt] at h
    omega
  | case5 conv depth md h reply tail hllm hcond htc =>
    cases hc : reply.content with
    | none => exact absurd ⟨hc, htc⟩ hcond
    | some text =>
      rw [process_eq_final env conv depth md reply tail text h hllm hc htc]
      simp only [gt_iff_lt, not_lt] at h
      omega
  | case6 conv depth md h reply tail hllm hcond htc =>
    rw [process_eq_empty_calls env conv depth md reply tail h hllm htc]
    simp only [gt_iff_lt, not_lt] at h
    omega
  | case7 conv depth md h reply tail hllm hcond tc tcs htc am trs ih =>
    rw [process_eq_tools env conv depth md reply tail tc tcs h hllm htc]
    have ham : am = { role := "assistant", content := reply.content,
                      tool_calls := some (tc :: tcs) } := rfl
    have htrs : trs = (tc :: tcs).map (make_tool_response env) := rfl
    rw [ham, htrs] at ih
    simp only [gt_iff_lt, not_lt] at h
    dsimp only
    omega

/-- Under forcing, the round-trip count is exactly `max_depth + 1 - depth`. -/
theorem process_snd_forced (env : Env) (hforce : forces_tools env)
    (conversation_history : List Message) (depth max_depth : Nat) :
    depth ≤ max_depth + 1 →
    (process_user_request env conversation_history depth max_depth).snd
      = max_depth + 1 - depth := by
  induction conversation_history, depth, max_depth using process_user_request.induct env with
  | case1 conv depth md h =>
    intro hle
    rw [process_eq_max_depth env conv depth md h]
    simp only [gt_iff_lt] at h
    omega
  | case2 conv depth md h hllm =>
    intro _
    obtain ⟨r, t, tc, tcs, h1, h2⟩ := hforce conv
    rw [hllm] at h1
    exact Option.noConfusion h1
  | case3 conv depth md h hllm =>
    intro _
    obtain ⟨r, t, tc, tcs, h1, h2⟩ := hforce conv
    rw [hllm] at h1
    simp at h1
  | case4 conv depth md h reply tail hllm hcond =>
    intro _
    obtain ⟨r, t, tc, tcs, h1, h2⟩ := hforce conv
    rw [hllm] at h1
    simp only [Option.some.injEq, List.cons.injEq] at h1
    rw [← h1.1, hcond.2] at h2
    exact Option.noConfusion h2
  | case5 conv depth md h reply tail hllm hcond htc =>
    intro _
    obtain ⟨r, t, tc, tcs, h1, h2⟩ := hforce conv
    rw [hllm] at h1
    simp only [Option.some.injEq, List.cons.injEq] at h1
    rw [← h1.1, htc] at h2
    exact Option.noConfusion h2
  | case6 conv depth md h reply tail hllm hcond htc =>
    intro _
    obtain ⟨r, t, tc, tcs, h1, h2⟩ := hforce conv
    rw [hllm] at h1
    simp only [Option.some.injEq, List.cons.injEq] at h1
    rw [← h1.1, htc] at h2
    simp at h2
  | case7 conv depth md h reply tail hllm hcond tc tcs htc am trs ih =>
    intro _
    rw [process_eq_tools env conv depth md reply tail tc tcs h hllm htc]
    have ham : am = { role := "assistant", content := reply.content,
                      tool_calls := some (tc :: tcs) } := rfl
    have htrs : trs = (tc :: tcs).map (make_tool_response env) := rfl
    rw [ham, htrs] at ih
    simp only [gt_iff_lt, not_lt] at h
    have := ih (by omega)
    dsimp only
    omega

/-- Under forcing, the run's final appended message is always the fixed
clarification message. -/
theorem process_last_forced (env : Env) (hforce : forces_tools env)
    (conversation_history : List Message) (depth max_depth : Nat) :
    ((process_user_request env conversation_history depth max_depth).fst).getLast?
      = some assistant_clarification_message := by
  induction conversation_history, depth, max_depth using process_user_request.induct env with
  | case1 conv depth md h =>
    rw [process_eq_max_depth env conv depth md h]
    simp [List.getLast?_append_cons]
  | case2 conv depth md h hllm =>
    obtain ⟨r, t, tc, tcs, h1, h2⟩ := hforce conv
    rw [hllm] at h1
    exact Option.noConfusion h1
  | case3 conv depth md h hllm =>
    obtain ⟨r, t, tc, tcs, h1, h2⟩ := hforce conv
    rw [hllm] at h1
    simp at h1
  | case4 conv depth md h reply tail hllm hcond =>
    obtain ⟨r, t, tc, tcs, h1, h2⟩ := hforce conv
    rw [hllm] at h1
    simp only [Option.some.injEq, List.cons.injEq] at h1
    rw [← h1.1, hcond.2] at h2
    exact Option.noConfusion h2
  | case5 conv depth md h reply tail hllm hcond htc =>
    obtain ⟨r, t, tc, tcs, h1, h2⟩ := hforce conv
    rw [hllm] at h1
    simp only [Option.some.injEq, List.cons.injEq] at h1
    rw [← h1.1, htc] at h2
    exact Option.noConfusion h2
  | case6 conv depth md h reply tail hllm hcond htc =>
    obtain ⟨r, t, tc, tcs, h1, h2⟩ := hforce conv
    rw [hllm] at h1
    simp only [Option.some.injEq, List.cons.injEq] at h1
    rw [← h1.1, htc] at h2
    simp at h2
  | case7 conv depth md h reply tail hllm hcond tc tcs htc am trs ih =>
    rw [process_eq_tools env conv depth md reply tail tc tcs h hllm htc]
    have ham : am = { role := "assistant", content := reply.content,
                      tool_calls := some (tc :: tcs) } := rfl
    have htrs : trs = (tc :: tcs).map (make_tool_response env) := rfl
    rw [ham, htrs] at ih
    exact ih

/-- C1: one run of the orchestrator starting at depth 0 with ceiling `N`
terminates (`process_user_request` is a total function) performing at most
`N + 1` LLM round-trips, and when every LLM reply requests at least one
tool call and `max_depth = 2`, exactly 3 round-trips occur and the run's
final appended message is the fixed clarification message. -/
theorem run_terminates_within_depth_bound (env : Env)
    (conversation_history : List Message) (N : Nat) :
    (process_user_request env conversation_history 0 N).snd ≤ N + 1
    ∧ (forces_tools env →
        (process_user_request env conversation_history 0 2).snd = 3
        ∧ ((process_user_request env conversation_history 0 2).fst).getLast?
            = some assistant_clarification_message) := by
  refine ⟨?_, fun hf => ⟨?_, process_last_forced env hf conversation_history 0 2⟩⟩
  · simpa using process_snd_le env conversation_history 0 N
  · simpa using process_snd_forced env hf conversation_history 0 2 (by omega)

theorem run_terminates_within_depth_bound_witness :
    (process_user_request forcing_env [] 0 2).snd = 3
    ∧ ((process_user_request forcing_env [] 0 2).fst).getLast?
        = some assistant_clarification_message :=
  (run_terminates_within_depth_bound forcing_env [] 2).2
    (fun _ => ⟨_, _, _, _, rfl, rfl⟩)

/-- C2 counterexample: dispatching a registered handler that returns
`None` yields `None` itself — `execute_function_call` lets `None` escape
and does not produce the error ToolResult with message
`function 'execute_sql_query' returned no result` that the claim states. -/
theorem dispatch_none_escapes_counterexample :
    execute_function_call none_returning_registry "execute_sql_query" (PyVal.dict [])
      = PyVal.none
    ∧ PyVal.none
        ≠ create_error_response "function \x27execute_sql_query\x27 returned no result"
            Option.none :=
  ⟨rfl, fun h => by simp [create_error_response] at h⟩

/-- C2 (amended): the dispatcher is total (it never raises outward, every
handler exception becoming an error ToolResult), but a handler returning
`None` has that `None` returned unchanged rather than wrapped into an
error ToolResult; the orchestrator then records a tool message with the
fixed text `Function '<name>' failed to execute` and no out-of-band
original content. -/
theorem dispatch_none_result_behavior (env : Env) (tool_call : ToolCall)
    (handler : Handler) (hreg : env.registry tool_call.name = some handler)
    (hret : handler (parsed_function_args env tool_call) = .ret PyVal.none) :
    execute_function_call env.registry tool_call.name (parsed_function_args env tool_call)
      = PyVal.none
    ∧ make_tool_response env tool_call
        = { role := "tool", tool_call_id := some tool_call.id,
            content := some ("Function \x27" ++ tool_call.name ++ "\x27 failed to execute") } := by
  have hex : execute_function_call env.registry tool_call.name
      (parsed_function_args env tool_call) = PyVal.none := by
    unfold execute_function_call
    rw [hreg]
    dsimp only
    rw [hret]
  refine ⟨hex, ?_⟩
  unfold make_tool_response
  rw [hex]

theorem dispatch_none_result_behavior_witness :
    execute_function_call none_env.registry "execute_sql_query"
        (parsed_function_args none_env ⟨"call_1", "function", "execute_sql_query", "\x7b\x7d"⟩)
      = PyVal.none
    ∧ make_tool_response none_env ⟨"call_1", "function", "execute_sql_query", "\x7b\x7d"⟩
        = { role := "tool", tool_call_id := some "call_1",
            content := some ("Function \x27" ++ "execute_sql_query" ++ "\x27 failed to execute") } :=
  dispatch_none_result_behavior none_env
    ⟨"call_1", "function", "execute_sql_query", "\x7b\x7d"⟩ _ rfl rfl

/-- C3 counterexample: dispatching a handler that returns the mapping
`{rows: 2}` (which carries no `type`/`data` pair) yields that mapping
unchanged, not the `{type: success, data: {rows: 2}}` wrapping the claim
states. -/
theorem dispatch_no_success_wrapping_counterexample :
    execute_function_call mapping_returning_registry "execute_sql_query" (PyVal.dict [])
      = PyVal.dict [("rows", .int 2)]
    ∧ PyVal.dict [("rows", .int 2)]
        ≠ PyVal.dict [("type", .str "success"), ("data", .dict [("rows", .int 2)])] :=
  ⟨rfl, fun h => by simp at h⟩

/-- C3 (amended): for every registered tool and parsed arguments, the
dispatcher returns the handler's value completely unchanged — a mapping is
passed through whether or not it already carries a `type`/`data` pair (no
`success` wrapping is ever added), and a non-mapping scalar is returned
as-is, the orchestrator then coercing it to text as the tool message
content with no success envelope. -/
theorem dispatch_passthrough (env : Env) (tool_call : ToolCall)
    (handler : Handler) (v : PyVal)
    (hreg : env.registry tool_call.name = some handler)
    (hret : handler (parsed_function_args env tool_call) = .ret v) :
    execute_function_call env.registry tool_call.name (parsed_function_args env tool_call) = v
    ∧ (∀ s : String, v = .str s →
        make_tool_response env tool_call
          = { role := "tool", tool_call_id := some tool_call.id, content := some s })
    ∧ (∀ n : Int, v = .int n →
        make_tool_response env tool_call
          = { role := "tool", tool_call_id := some tool_call.id,
              content := some (toString n) })
    ∧ (∀ es : List (String × PyVal), v = .dict es →
        make_tool_response env tool_call
          = { role := "tool", tool_call_id := some tool_call.id,
              content := some (PyVal.dumps (create_simplified_tool_response (.dict es))),
              original_content := some (.dict es) }) := by
  have hex : execute_function_call env.registry tool_call.name
      (parsed_function_args env tool_call) = v := by
    unfold execute_function_call
    rw [hreg]
    dsimp only
    rw [hret]
  refine ⟨hex, ?_, ?_, ?_⟩
  · rintro s rfl
    unfold make_tool_response
    rw [hex]
    rfl
  · rintro n rfl
    unfold make_tool_response
    rw [hex]
    rfl
  · rintro es rfl
    unfold make_tool_response
    rw [hex]

theorem dispatch_passthrough_witness :
    execute_function_call mapping_env.registry "execute_sql_query"
        (parsed_function_args mapping_env ⟨"call_1", "function", "execute_sql_query", "\x7b\x7d"⟩)
      = PyVal.dict [("rows", .int 2)]
    ∧ make_tool_response mapping_env ⟨"call_1", "function", "execute_sql_query", "\x7b\x7d"⟩
        = { role := "tool", tool_call_id := some "call_1",
            content := some (PyVal.dumps (create_simplified_tool_response
              (.dict [("rows", .int 2)]))),
            original_content := some (.dict [("rows", .int 2)]) } := by
  have h := dispatch_passthrough mapping_env
    ⟨"call_1", "function", "execute_sql_query", "\x7b\x7d"⟩ _ _ rfl rfl
  exact ⟨h.1, h.2.2.2 [("rows", .int 2)] rfl⟩

/-- C4 counterexample: for the unregistered name `create_gantt_chart`,
dispatch returns an error ToolResult, but its message is the source's
`in execute_function_call Function 'create_gantt_chart' not found in
registry\n`, which is not the claim's exact message
`function 'create_gantt_chart' not found in registry`. -/
theorem unknown_tool_message_counterexample :
    execute_function_call empty_registry "create_gantt_chart" (PyVal.dict [])
      = PyVal.dict [("type", .str "error"),
          ("data", .dict [("message",
            .str "in execute_function_call Function \x27create_gantt_chart\x27 not found in registry\n")])]
    ∧ "in execute_function_call Function \x27create_gantt_chart\x27 not found in registry\n"
        ≠ "function \x27create_gantt_chart\x27 not found in registry" :=
  ⟨rfl, by decide⟩

/-- C4 (amended): for a name absent from the registry, dispatch returns an
`error` ToolResult whose message is
`in execute_function_call Function '<name>' not found in registry\n`
(containing `not found in registry`, but prefixed and newline-terminated,
not the claim's exact text); the orchestrator records it as an ordinary
tool message whose content is the serialized error result (the splitter
leaves it unchanged), and with `max_depth ≥ 1` the run proceeds to at
least one subsequent LLM round-trip rather than terminating. -/
theorem unknown_tool_error_and_run_continues (env : Env) (tool_call : ToolCall)
    (hreg : env.registry tool_call.name = Option.none) :
    execute_function_call env.registry tool_call.name (parsed_function_args env tool_call)
      = create_error_response
          ("in execute_function_call Function \x27" ++ tool_call.name
            ++ "\x27 not found in registry\n") Option.none
    ∧ (make_tool_response env tool_call).content
        = some (PyVal.dumps (create_error_response
            ("in execute_function_call Function \x27" ++ tool_call.name
              ++ "\x27 not found in registry\n") Option.none))
    ∧ (∀ (conv : List Message) (md : Nat) (reply : LLMReply)
         (tail : List LLMReply) (tcs : List ToolCall),
        1 ≤ md →
        env.llm conv = some (reply :: tail) →
        reply.tool_calls = some (tool_call :: tcs) →
        2 ≤ (process_user_request env conv 0 md).snd) := by
  have hex : execute_function_call env.registry tool_call.name
      (parsed_function_args env tool_call)
      = create_error_response
          ("in execute_function_call Function \x27" ++ tool_call.name
            ++ "\x27 not found in registry\n") Option.none := by
    unfold execute_function_call
    rw [hreg]
  refine ⟨hex, ?_, ?_⟩
  · unfold make_tool_response
    rw [hex]
    rfl
  · intro conv md reply tail tcs hmd hllm htc
    rw [process_eq_tools env conv 0 md reply tail tool_call tcs (by omega) hllm htc]
    have h1 := process_snd_pos env
      (conv ++ ({ role := "assistant", content := reply.content,
                  tool_calls := some (tool_call :: tcs) } : Message)
         :: (tool_call :: tcs).map (make_tool_response env)) 1 md (by omega)
    dsimp only
    simp only [Nat.zero_add]
    omega

theorem unknown_tool_error_and_run_continues_witness :
    execute_function_call unknown_tool_env.registry "create_gantt_chart"
        (parsed_function_args unknown_tool_env
          ⟨"call_9", "function", "create_gantt_chart", "\x7b\x7d"⟩)
      = create_error_response
          ("in execute_function_call Function \x27" ++ "create_gantt_chart"
            ++ "\x27 not found in registry\n") Option.none
    ∧ 2 ≤ (process_user_request unknown_tool_env [] 0 5).snd := by
  have h := unknown_tool_error_and_run_continues unknown_tool_env
    ⟨"call_9", "function", "create_gantt_chart", "\x7b\x7d"⟩ rfl
  exact ⟨h.1, h.2.2 [] 5 _ _ _ (by omega) rfl rfl⟩

/-- C9: when the raw argument payload fails to parse, the orchestrator
substitutes the empty mapping, and the dispatch of that call proceeds with
no arguments: the resulting tool message is exactly the one obtained by
successfully parsing an empty mapping — no argument-parse error result is
produced. -/
theorem malformed_arguments_empty_mapping (env : Env) (tool_call : ToolCall)
    (hparse : env.parseArgs tool_call.arguments = Option.none) :
    parsed_function_args env tool_call = PyVal.dict []
    ∧ make_tool_response env tool_call
        = make_tool_response
            { env with parseArgs := fun _ => some (PyVal.dict []) } tool_call := by
  have hargs : parsed_function_args env tool_call = PyVal.dict [] := by
    unfold parsed_function_args
    rw [hparse]
  refine ⟨hargs, ?_⟩
  unfold make_tool_response
  rw [hargs]
  rfl

theorem malformed_arguments_empty_mapping_witness :
    parsed_function_args bad_json_env ⟨"call_2", "function", "execute_sql_query", "not json"⟩
      = PyVal.dict []
    ∧ make_tool_response bad_json_env ⟨"call_2", "function", "execute_sql_query", "not json"⟩
        = make_tool_response
            { bad_json_env with parseArgs := fun _ => some (PyVal.dict []) }
            ⟨"call_2", "function", "execute_sql_query", "not json"⟩ :=
  malformed_arguments_empty_mapping bad_json_env
    ⟨"call_2", "function", "execute_sql_query", "not json"⟩ rfl

/-- C6: the splitter is the identity on every result that is not a
`success` dict carrying an `image` key inside a dict `data` — error
results, successes without an image, and every other shape. -/
theorem split_identity_without_image (tool_result : PyVal)
    (h : is_image_success tool_result = false) :
    create_simplified_tool_response tool_result = tool_result := by
  cases tool_result with
  | dict entries =>
    unfold create_simplified_tool_response
    simp only [is_image_success] at h
    split
    · next es2 heq =>
      injection heq with hes
      subst hes
      split
      · next data_entries htype hdata =>
        rw [htype, hdata] at h
        simp only [] at h
        simp [h]
      · rfl
    · next hcontra => exact absurd rfl (hcontra entries)
  | str s => rfl
  | int n => rfl
  | bool b => rfl
  | none => rfl
  | list xs => rfl

theorem split_identity_without_image_witness :
    create_simplified_tool_response
        (create_error_response "Database connection failed" (some "timeout"))
      = create_error_response "Database connection failed" (some "timeout") :=
  split_identity_without_image
    (create_error_response "Database connection failed" (some "timeout")) rfl

/-- Reduction of the splitter on a `success` dict with an `image` key. -/
theorem create_simplified_image (es ds : List (String × PyVal))
    (htype : PyVal.dictGet es "type" = some (.str "success"))
    (hdata : PyVal.dictGet es "data" = some (.dict ds))
    (himg : (PyVal.dictGet ds "image").isSome = true) :
    create_simplified_tool_response (.dict es)
      = .dict [("type", .str "success"),
               ("data", .dict [
                  ("chart_type", (PyVal.dictGet ds "chart_type").getD (.str "chart")),
                  ("title", (PyVal.dictGet ds "title").getD (.str "Chart")),
                  ("image", .str "generated successfully")])] := by
  unfold create_simplified_tool_response
  split
  · next es2 heq =>
    injection heq with hes
    subst hes
    split
    · next data_entries ht hd =>
      rw [hdata] at hd
      injection hd with hd
      injection hd with hd
      subst hd
      simp [himg]
    · next hcontra => exact absurd hdata (fun hh => hcontra ds htype hh)
  · next hcontra => exact absurd rfl (hcontra es)

/-- C5: when the dispatched ToolResult is a `success` whose `data`
contains an `image` payload string, the appended tool message's content is
the serialization of the simplified projection, which retains `chart_type`
and `title` (with their `.get` defaults), carries the fixed sentinel
`generated successfully` in place of the payload, and — whenever the
payload is longer than the entire serialized projection, as a base64 image
always is — cannot contain the raw payload string; the same message's
`_original_content` is the unmodified ToolResult. -/
theorem image_payload_split (env : Env) (tool_call : ToolCall)
    (es ds : List (String × PyVal)) (payload : String)
    (hres : execute_function_call env.registry tool_call.name
              (parsed_function_args env tool_call) = .dict es)
    (htype : PyVal.dictGet es "type" = some (.str "success"))
    (hdata : PyVal.dictGet es "data" = some (.dict ds))
    (himg : PyVal.dictGet ds "image" = some (.str payload)) :
    create_simplified_tool_response (.dict es)
      = .dict [("type", .str "success"),
               ("data", .dict [
                  ("chart_type", (PyVal.dictGet ds "chart_type").getD (.str "chart")),
                  ("title", (PyVal.dictGet ds "title").getD (.str "Chart")),
                  ("image", .str "generated successfully")])]
    ∧ (make_tool_response env tool_call).content
        = some (PyVal.dumps (create_simplified_tool_response (.dict es)))
    ∧ (make_tool_response env tool_call).original_content = some (.dict es)
    ∧ ((PyVal.dumps (create_simplified_tool_response (.dict es))).length < payload.length →
        ¬ containsStr (PyVal.dumps (create_simplified_tool_response (.dict es))) payload) := by
  refine ⟨create_simplified_image es ds htype hdata (by rw [himg]; rfl), ?_, ?_, ?_⟩
  · unfold make_tool_response
    rw [hres]
  · unfold make_tool_response
    rw [hres]
  · intro hlen
    exact not_containsStr_of_longer _ _ hlen

set_option maxRecDepth 8192 in
theorem image_payload_split_witness :
    (make_tool_response chart_env ⟨"call_3", "function", "create_bar_chart", "\x7b\x7d"⟩).content
      = some (PyVal.dumps (create_simplified_tool_response chart_result))
    ∧ (make_tool_response chart_env
        ⟨"call_3", "function", "create_bar_chart", "\x7b\x7d"⟩).original_content
      = some chart_result
    ∧ ¬ containsStr (PyVal.dumps (create_simplified_tool_response chart_result))
        chart_payload := by
  have h := image_payload_split chart_env
    ⟨"call_3", "function", "create_bar_chart", "\x7b\x7d"⟩
    [("type", .str "success"),
     ("data", .dict [("chart_type", .str "bar_chart"), ("title", .str "X"),
                     ("image", .str chart_payload)])]
    [("chart_type", .str "bar_chart"), ("title", .str "X"), ("image", .str chart_payload)]
    chart_payload rfl rfl rfl rfl
  exact ⟨h.2.1, h.2.2.1, h.2.2.2 (by decide)⟩

/-- C10: the appended tool message carries the out-of-band
`_original_content` field exactly when the dispatch outcome for that call
is a mapping; for a `None` or scalar outcome the field is absent, and such
a message can never be the one the platform layer selects as the
image-bearing tool message. -/
theorem original_content_iff_mapping (env : Env) (tool_call : ToolCall) :
    ((make_tool_response env tool_call).original_content
      = match execute_function_call env.registry tool_call.name
            (parsed_function_args env tool_call) with
        | .dict es => some (.dict es)
        | _ => Option.none)
    ∧ ((∀ es : List (String × PyVal),
          execute_function_call env.registry tool_call.name
            (parsed_function_args env tool_call) ≠ .dict es) →
        ∀ response : List Message,
          last_tool_response response ≠ some (make_tool_response env tool_call)) := by
  have horig : (make_tool_response env tool_call).original_content
      = match execute_function_call env.registry tool_call.name
            (parsed_function_args env tool_call) with
        | .dict es => some (.dict es)
        | _ => Option.none := by
    unfold make_tool_response
    cases hres : execute_function_call env.registry tool_call.name
        (parsed_function_args env tool_call) <;> rfl
  refine ⟨horig, fun hne response hsel => ?_⟩
  unfold last_tool_response at hsel
  have hpred := List.find?_some hsel
  have hnone : (make_tool_response env tool_call).original_content = Option.none := by
    rw [horig]
    cases hres : execute_function_call env.registry tool_call.name
        (parsed_function_args env tool_call) with
    | dict es => exact absurd hres (hne es)
    | str s => rfl
    | int n => rfl
    | bool b => rfl
    | none => rfl
    | list xs => rfl
  unfold is_tool_with_original at hpred
  rw [hnone] at hpred
  simp at hpred

theorem original_content_iff_mapping_witness :
    (make_tool_response scalar_env
        ⟨"call_7", "function", "resolve_name", "\x7b\x7d"⟩).original_content = Option.none
    ∧ last_tool_response [make_tool_response scalar_env
        ⟨"call_7", "function", "resolve_name", "\x7b\x7d"⟩]
      ≠ some (make_tool_response scalar_env
          ⟨"call_7", "function", "resolve_name", "\x7b\x7d"⟩) := by
  have h := original_content_iff_mapping scalar_env
    ⟨"call_7", "function", "resolve_name", "\x7b\x7d"⟩
  have hne : ∀ es : List (String × PyVal),
      execute_function_call scalar_env.registry "resolve_name"
        (parsed_function_args scalar_env
          ⟨"call_7", "function", "resolve_name", "\x7b\x7d"⟩) ≠ .dict es := by
    intro es hcontra
    have hx : PyVal.str "John Smith" = PyVal.dict es := by
      rw [← hcontra]
      rfl
    cases hx
  exact ⟨by rw [h.1]; rfl, h.2 hne _⟩

/-- C7 counterexample: a reply carrying neither text content nor tool-call
requests — its `tool_calls` being a present-but-empty list rather than
`None` — does not produce the clarification message: the run appends an
assistant message with `None` content and terminates. -/
theorem unusable_reply_empty_toolcalls_counterexample :
    (process_user_request empty_calls_env [] 0 5).fst
      = [{ role := "assistant", content := Option.none }]
    ∧ ({ role := "assistant", content := Option.none } : Message)
        ≠ assistant_clarification_message := by
  constructor
  · rw [process_eq_empty_calls empty_calls_env [] 0 5 ⟨Option.none, some []⟩ []
        (by omega) rfl rfl]
    rfl
  · intro hcontra
    simp [assistant_clarification_message] at hcontra

/-- C7 (amended): whenever the LLM call fails, returns an empty choices
list, or returns a reply whose `content` and `tool_calls` fields are both
`None`, the orchestrator appends the fixed clarification message and
terminates after that single round-trip; the run is a total function and
always returns the extended conversation.  The code's unusable test is
however `content is None and tool_calls is None`: a reply with no text
content whose tool-call list is present but empty is appended as a final
assistant message with `None` content instead of the clarification. -/
theorem llm_failure_clarification (env : Env) (conv : List Message)
    (depth md : Nat) (h : depth ≤ md) :
    (env.llm conv = Option.none →
      process_user_request env conv depth md
        = (conv ++ [assistant_clarification_message], 1))
    ∧ (env.llm conv = some [] →
      process_user_request env conv depth md
        = (conv ++ [assistant_clarification_message], 1))
    ∧ (∀ (reply : LLMReply) (tail : List LLMReply),
        env.llm conv = some (reply :: tail) →
        reply.content = Option.none → reply.tool_calls = Option.none →
        process_user_request env conv depth md
          = (conv ++ [assistant_clarification_message], 1))
    ∧ (∀ (reply : LLMReply) (tail : List LLMReply),
        env.llm conv = some (reply :: tail) →
        reply.tool_calls = some [] →
        process_user_request env conv depth md
          = (conv ++ [{ role := "assistant", content := reply.content }], 1)) := by
  have hnd : ¬ depth > md := by omega
  exact ⟨process_eq_llm_fail env conv depth md hnd,
         process_eq_no_choices env conv depth md hnd,
         fun r t h1 h2 h3 => process_eq_unusable env conv depth md r t hnd h1 h2 h3,
         fun r t h1 h2 => process_eq_empty_calls env conv depth md r t hnd h1 h2⟩

theorem llm_failure_clarification_witness :
    process_user_request failing_llm_env [] 0 5
      = ([assistant_clarification_message], 1) :=
  (llm_failure_clarification failing_llm_env [] 0 5 (by omega)).1 rfl

theorem pairing_ok_cons (m : Message) (rest : List Message) :
    pairing_ok (m :: rest)
      = if m.role == "tool" then false
        else
          match m.tool_calls with
          | some tcs =>
              decide ((rest.take tcs.length).map (fun x => (x.role, x.tool_call_id))
                      = tcs.map (fun tc => ("tool", some tc.id)))
              && pairing_ok (rest.drop tcs.length)
          | Option.none => pairing_ok rest := by
  rw [pairing_ok.eq_def]

theorem make_tool_response_role_id (env : Env) (tool_call : ToolCall) :
    (make_tool_response env tool_call).role = "tool"
    ∧ (make_tool_response env tool_call).tool_call_id = some tool_call.id := by
  unfold make_tool_response
  cases execute_function_call env.registry tool_call.name
      (parsed_function_args env tool_call) <;> exact ⟨rfl, rfl⟩

theorem pairing_ok_append (l1 l2 : List Message)
    (h1 : pairing_ok l1 = true) (h2 : pairing_ok l2 = true) :
    pairing_ok (l1 ++ l2) = true := by
  revert h1
  induction l1 using pairing_ok.induct with
  | case1 => intro _; simpa using h2
  | case2 m rest hrole =>
    intro h1
    rw [pairing_ok_cons, if_pos hrole] at h1
    exact absurd h1 (by simp)
  | case3 m rest hrole tcs htcs ih =>
    intro h1
    rw [pairing_ok_cons, if_neg (by simp [hrole]), htcs] at h1
    rw [List.cons_append, pairing_ok_cons, if_neg (by simp [hrole]), htcs]
    dsimp only
    simp only [Bool.and_eq_true, decide_eq_true_eq] at h1
    obtain ⟨hcond, hrest⟩ := h1
    have hklen : tcs.length ≤ rest.length := by
      have := congrArg List.length hcond
      simp only [List.length_map, List.length_take] at this
      omega
    rw [List.take_append_of_le_length hklen, List.drop_append_of_le_length hklen]
    simp only [Bool.and_eq_true, decide_eq_true_eq]
    exact ⟨hcond, ih hrest⟩
  | case4 m rest hrole htcs ih =>
    intro h1
    rw [pairing_ok_cons, if_neg (by simp [hrole]), htcs] at h1
    rw [List.cons_append, pairing_ok_cons, if_neg (by simp [hrole]), htcs]
    dsimp only
    dsimp only at h1
    exact ih h1

theorem pairing_ok_nil : pairing_ok [] = true := by
  rw [pairing_ok.eq_def]

theorem pairing_ok_singleton_assistant (m : Message)
    (hrole : (m.role == "tool") = false) (htc : m.tool_calls = Option.none) :
    pairing_ok [m] = true := by
  rw [pairing_ok_cons, if_neg (by simp [hrole]), htc]
  exact pairing_ok_nil

theorem pairing_ok_assistant_block (env : Env) (c : Option String) (tcs : List ToolCall) :
    pairing_ok (({ role := "assistant", content := c, tool_calls := some tcs } : Message)
        :: tcs.map (make_tool_response env)) = true := by
  rw [pairing_ok_cons]
  norm_num
  refine ⟨by decide, ?_, ?_⟩
  · rw [List.take_of_length_le (by simp)]
    exact List.map_congr_left (fun tc _ => by
      have hh := make_tool_response_role_id env tc
      simp [Function.comp, hh.1, hh.2])
  · rw [List.drop_eq_nil_of_le (by simp)]
    exact pairing_ok_nil

/-- C8: in every conversation produced by a run on a pairing-clean input,
every message carrying `k` tool-call requests is immediately followed by
exactly `k` tool messages whose `tool_call_id`s match the requests
one-to-one in order, with none missing, reordered, or extra (and no tool
message appears outside such a block). -/
theorem turn_response_pairing (env : Env) (conversation_history : List Message)
    (depth max_depth : Nat) (h : pairing_ok conversation_history = true) :
    pairing_ok (process_user_request env conversation_history depth max_depth).fst = true := by
  revert h
  induction conversation_history, depth, max_depth using process_user_request.induct env with
  | case1 conv depth md hgt =>
    intro h
    rw [process_eq_max_depth env conv depth md hgt]
    exact pairing_ok_append conv [assistant_clarification_message] h
      (pairing_ok_singleton_assistant _ rfl rfl)
  | case2 conv depth md hgt hllm =>
    intro h
    rw [process_eq_llm_fail env conv depth md hgt hllm]
    exact pairing_ok_append conv [assistant_clarification_message] h
      (pairing_ok_singleton_assistant _ rfl rfl)
  | case3 conv depth md hgt hllm =>
    intro h
    rw [process_eq_no_choices env conv depth md hgt hllm]
    exact pairing_ok_append conv [assistant_clarification_message] h
      (pairing_ok_singleton_assistant _ rfl rfl)
  | case4 conv depth md hgt reply tail hllm hcond =>
    intro h
    rw [process_eq_unusable env conv depth md reply tail hgt hllm hcond.1 hcond.2]
    exact pairing_ok_append conv [assistant_clarification_message] h
      (pairing_ok_singleton_assistant _ rfl rfl)
  | case5 conv depth md hgt reply tail hllm hcond htc =>
    intro h
    cases hc : reply.content with
    | none => exact absurd ⟨hc, htc⟩ hcond
    | some text =>
      rw [process_eq_final env conv depth md reply tail text hgt hllm hc htc]
      exact pairing_ok_append conv [{ role := "assistant", content := some text }] h
        (pairing_ok_singleton_assistant _ rfl rfl)
  | case6 conv depth md hgt reply tail hllm hcond htc =>
    intro h
    rw [process_eq_empty_calls env conv depth md reply tail hgt hllm htc]
    exact pairing_ok_append conv [{ role := "assistant", content := reply.content }] h
      (pairing_ok_singleton_assistant _ rfl rfl)
  | case7 conv depth md hgt reply tail hllm hcond tc tcs htc am trs ih =>
    intro h
    rw [process_eq_tools env conv depth md reply tail tc tcs hgt hllm htc]
    have ham : am = { role := "assistant", content := reply.content,
                      tool_calls := some (tc :: tcs) } := rfl
    have htrs : trs = (tc :: tcs).map (make_tool_response env) := rfl
    rw [ham, htrs] at ih
    dsimp only
    apply ih
    exact pairing_ok_append conv
      (({ role := "assistant", content := reply.content,
          tool_calls := some (tc :: tcs) } : Message)
        :: (tc :: tcs).map (make_tool_response env)) h
      (pairing_ok_assistant_block env reply.content (tc :: tcs))

theorem turn_response_pairing_witness :
    pairing_ok (process_user_request pairing_env [] 0 1).fst = true :=
  turn_response_pairing pairing_env [] 0 1 pairing_ok_nil
